import Mathlib

/-!
Verification development for the fastlabels layout and pagination engine
(source files label.py and label-customsize.py).

Embedding conventions:
- Python ints are modelled as `Int`; Python floor division and the percent
  operator follow the divisor sign, so they are `Int.fdiv` and `Int.fmod`.
- `math.floor(a / b)` on exact integer inputs equals `Int.fdiv a b`; the
  float subexpressions of the cell composer are modelled exactly in `Rat`,
  and Python `int(...)` truncation toward zero on a rational `q` is
  `q.num.tdiv q.den` (`pytrunc`).
- Code that can raise an uncaught Python exception is modelled in
  `Except PyError`, with one constructor per exception class the source
  can actually raise on the modelled paths.
- PIL images are modelled as a size plus a pixel map; `Image.paste` with an
  RGBA mask keeps the destination pixel where the mask alpha is 0 and
  blends elsewhere, while `paste` without a mask overwrites the pixel.
-/

/-- Exception classes the modelled code paths can raise. -/
inductive PyError where
  | zeroDivisionError
  | valueError
  | indexError
deriving DecidableEq, Repr

/-- Python `int(q)` for exact rational `q`: truncation toward zero. -/
def pytrunc (q : ℚ) : ℤ := q.num.tdiv (q.den : ℤ)

/-- `chunks(lst, n)` from label.py line 303 and label-customsize.py line 257:
`for i in range(0, len(lst), n): yield int(i / n), lst[i : i + n]`.
For `n ≥ 1`, `range(0, len(lst), n)` enumerates `i = k * n` for
`k < ceil(len(lst) / n)`, and `int(i / n) = i / n` exactly because `i` is a
multiple of `n`; `lst[i : i + n]` is `(lst.drop i).take n`. -/
def chunks {α : Type} (lst : List α) (n : ℕ) : List (ℕ × List α) :=
  (List.range ((lst.length + n - 1) / n)).map
    (fun k => (k * n / n, (lst.drop (k * n)).take n))

/-- The `chunks` generator validated against Python `range`: a zero step makes
`range(0, len(lst), 0)` raise `ValueError` as soon as the generator is first
advanced; a negative step yields an empty range, hence no chunks. -/
def chunksZE {α : Type} (lst : List α) (n : ℤ) : Except PyError (List (ℕ × List α)) :=
  if n = 0 then .error .valueError
  else if n < 0 then .ok []
  else .ok (chunks lst n.toNat)

lemma chunks_eq {α : Type} (lst : List α) {n : ℕ} (hn : 1 ≤ n) :
    chunks lst n = (List.range ((lst.length + n - 1) / n)).map
      (fun k => (k, (lst.drop (k * n)).take n)) := by
  unfold chunks
  refine List.map_congr_left fun k _ => ?_
  rw [Nat.mul_div_cancel k (by omega)]

lemma chunks_flatten_aux {α : Type} (n : ℕ) :
    ∀ (m : ℕ) (lst : List α),
      ((List.range m).map (fun k => (lst.drop (k * n)).take n)).flatten = lst.take (m * n) := by
  intro m
  induction m with
  | zero => simp
  | succ m ih =>
      intro lst
      rw [List.range_succ, List.map_append, List.flatten_append, ih]
      simp [Nat.succ_mul, List.take_add]

lemma ceil_div_mul_ge {L n : ℕ} (hn : 1 ≤ n) : L ≤ (L + n - 1) / n * n := by
  have h5 : L + n - 1 < ((L + n - 1) / n + 1) * n :=
    (Nat.div_lt_iff_lt_mul (show 0 < n by omega)).mp (Nat.lt_succ_self ((L + n - 1) / n))
  rw [Nat.succ_mul] at h5
  set t := (L + n - 1) / n * n
  omega

/-- Claim C1: for every list and every capacity `n ≥ 1`, the paginator
`chunks` yields consecutive, non-overlapping groups in the original order
whose concatenation reproduces the input exactly, the number of groups is
`ceil (length / n)`, the yielded page indices are `0, 1, 2, ...`, and every
group except possibly the last has length exactly `n`. -/
theorem chunks_pagination {α : Type} (lst : List α) (n : ℕ) (hn : 1 ≤ n) :
    ((chunks lst n).map Prod.snd).flatten = lst ∧
    (chunks lst n).length = (lst.length + n - 1) / n ∧
    (chunks lst n).map Prod.fst = List.range ((lst.length + n - 1) / n) ∧
    ∀ (k : ℕ) (p : ℕ × List α), k + 1 < (chunks lst n).length →
      (chunks lst n)[k]? = some p → p.2.length = n := by
  have hm : lst.length ≤ (lst.length + n - 1) / n * n := ceil_div_mul_ge hn
  refine ⟨?_, ?_, ?_, ?_⟩
  · rw [chunks_eq lst hn, List.map_map]
    have : (Prod.snd ∘ fun k => ((k, (lst.drop (k * n)).take n) : ℕ × List α)) =
        fun k => (lst.drop (k * n)).take n := rfl
    rw [this, chunks_flatten_aux n, List.take_of_length_le hm]
  · unfold chunks
    rw [List.length_map, List.length_range]
  · rw [chunks_eq lst hn, List.map_map]
    show (List.range ((lst.length + n - 1) / n)).map (fun k => k) =
      List.range ((lst.length + n - 1) / n)
    exact List.map_id _
  · intro k p hk hp
    rw [chunks_eq lst hn] at hp
    rw [chunks_eq lst hn, List.length_map, List.length_range] at hk
    rw [List.getElem?_map, List.getElem?_range (by omega : k < (lst.length + n - 1) / n)] at hp
    rw [Option.map_some'] at hp
    injection hp with hp
    subst hp
    have h6 : (k + 2) * n ≤ (lst.length + n - 1) / n * n :=
      Nat.mul_le_mul_right n (by omega)
    have h7 : (lst.length + n - 1) / n * n ≤ lst.length + n - 1 :=
      Nat.div_mul_le_self _ n
    rw [show (k + 2) * n = k * n + n + n from by ring] at h6
    simp only [List.length_take, List.length_drop]
    set t := k * n
    set s := (lst.length + n - 1) / n * n
    omega

/-- Witness for C1 at a concrete input: five units, capacity two. -/
theorem chunks_pagination_witness :
    1 ≤ 2 ∧
    (((chunks [10, 11, 12, 13, 14] 2).map Prod.snd).flatten = [10, 11, 12, 13, 14] ∧
    (chunks [10, 11, 12, 13, 14] 2).length = ([10, 11, 12, 13, 14].length + 2 - 1) / 2 ∧
    (chunks [10, 11, 12, 13, 14] 2).map Prod.fst =
      List.range (([10, 11, 12, 13, 14].length + 2 - 1) / 2) ∧
    ∀ (k : ℕ) (p : ℕ × List ℕ), k + 1 < (chunks [10, 11, 12, 13, 14] 2).length →
      (chunks [10, 11, 12, 13, 14] 2)[k]? = some p → p.2.length = 2) :=
  ⟨by decide, chunks_pagination [10, 11, 12, 13, 14] 2 (by decide)⟩

/-- Sanity evaluation of the paginator on a concrete list. -/
theorem chunks_eval_check :
    chunks [10, 11, 12, 13, 14] 2 = [(0, [10, 11]), (1, [12, 13]), (2, [14])] := by decide

/-- Labels per row, label.py line 348 and label-customsize.py line 309:
`math.floor((target_size[0] - (2 * MARGIN[0])) / imsize[0])`. -/
def l_per_row (tw mw iw : ℤ) : ℤ := (tw - 2 * mw).fdiv iw

/-- Labels per column, label.py line 349 and label-customsize.py line 310. -/
def l_per_col (th mh ih : ℤ) : ℤ := (th - 2 * mh).fdiv ih

/-- `col = i % l_per_row`, label.py line 363. -/
def tile_col (i : ℕ) (lpr : ℤ) : ℤ := (i : ℤ).fmod lpr

/-- `row = math.floor(i / l_per_row)`, label.py line 364. -/
def tile_row (i : ℕ) (lpr : ℤ) : ℤ := (i : ℤ).fdiv lpr

/-- `x = col * imsize[0] + MARGIN[0]`, label.py line 365. -/
def tile_x (col iw mw : ℤ) : ℤ := col * iw + mw

/-- `y = row * imsize[1] + MARGIN[1]`, label.py line 365. -/
def tile_y (row ih mh : ℤ) : ℤ := row * ih + mh

/-- `ims_per_cell = math.floor(cell_size[0] / ims[0].size[0])`, label.py line 314. -/
def ims_per_cell (cellw imw : ℤ) : ℤ := cellw.fdiv imw

/-- `cell_per_row`, label.py line 315: the template grid adds a per-cell margin. -/
def cell_per_row (tw cmx mw cellw : ℤ) : ℤ := (tw + cmx - 2 * mw).fdiv (cellw + cmx)

/-- `cell_per_col`, label.py line 316. -/
def cell_per_col (th cmy mh cellh : ℤ) : ℤ := (th + cmy - 2 * mh).fdiv (cellh + cmy)

lemma fdiv_le_fdiv_num {a b d : ℤ} (hd : 0 < d) (h : a ≤ b) : a.fdiv d ≤ b.fdiv d := by
  rw [Int.fdiv_eq_ediv _ hd.le, Int.fdiv_eq_ediv _ hd.le]
  exact Int.ediv_le_ediv hd h

lemma fdiv_anti_den {a d e : ℤ} (ha : 0 ≤ a) (hd : 0 < d) (h : d ≤ e) :
    a.fdiv e ≤ a.fdiv d := by
  have he : 0 < e := lt_of_lt_of_le hd h
  rw [Int.fdiv_eq_ediv _ hd.le, Int.fdiv_eq_ediv _ he.le]
  rw [Int.le_ediv_iff_mul_le hd]
  calc a / e * d ≤ a / e * e :=
        mul_le_mul_of_nonneg_left h (Int.ediv_nonneg ha he.le)
    _ ≤ a := Int.ediv_mul_le a he.ne'

/-- Claim C4: the grid capacity is `cols = floor((canvas.width - 2 * margin.h)
/ cell.width)` (and symmetrically for rows); the integer value is the exact
floor of the rational quotient; for canvas 2550 by 3300, margin (56, 56) and
cell 236 by 285 this gives cols = 10, rows = 11, capacity 110. -/
theorem tile_grid_capacity :
    (∀ tw mw iw : ℤ, l_per_row tw mw iw = (tw - 2 * mw).fdiv iw) ∧
    (∀ th mh ih : ℤ, l_per_col th mh ih = (th - 2 * mh).fdiv ih) ∧
    (∀ tw mw iw : ℤ, 0 < iw →
      (l_per_row tw mw iw : ℚ) ≤ ((tw : ℚ) - 2 * (mw : ℚ)) / (iw : ℚ) ∧
      ((tw : ℚ) - 2 * (mw : ℚ)) / (iw : ℚ) < l_per_row tw mw iw + 1) ∧
    l_per_row 2550 56 236 = 10 ∧ l_per_col 3300 56 285 = 11 ∧
    l_per_row 2550 56 236 * l_per_col 3300 56 285 = 110 := by
  refine ⟨fun _ _ _ => rfl, fun _ _ _ => rfl, ?_, by decide, by decide, by decide⟩
  intro tw mw iw hiw
  have hq : l_per_row tw mw iw = (tw - 2 * mw) / iw := Int.fdiv_eq_ediv _ hiw.le
  have hiwQ : (0 : ℚ) < (iw : ℚ) := by exact_mod_cast hiw
  constructor
  · rw [le_div_iff₀ hiwQ, hq]
    have h1 : (tw - 2 * mw) / iw * iw ≤ tw - 2 * mw := Int.ediv_mul_le _ hiw.ne'
    exact_mod_cast h1
  · rw [div_lt_iff₀ hiwQ, hq]
    have h2 : tw - 2 * mw < ((tw - 2 * mw) / iw + 1) * iw :=
      Int.lt_ediv_add_one_mul_self _ hiw
    exact_mod_cast h2

/-- Witness for C4 at the concrete Scenario B configuration. -/
theorem tile_grid_capacity_witness :
    (0 : ℤ) < 236 ∧
    ((l_per_row 2550 56 236 : ℚ) ≤ ((2550 : ℚ) - 2 * (56 : ℚ)) / (236 : ℚ) ∧
      ((2550 : ℚ) - 2 * (56 : ℚ)) / (236 : ℚ) < l_per_row 2550 56 236 + 1) ∧
    l_per_row 2550 56 236 = 10 :=
  ⟨by decide, tile_grid_capacity.2.2.1 2550 56 236 (by decide), tile_grid_capacity.2.2.2.1⟩

/-- Claim C5: cell positions are top-left anchored at
`x = margin.h + col * cell.w`, `y = margin.v + row * cell.h`; the flat index
is mapped row-major (`col = i mod cols`, `row = floor(i / cols)`, which
together reconstruct `i`); and every valid cell stays inside the canvas
minus the opposite margin. -/
theorem tile_position_bounds :
    (∀ col row iw ih mw mh : ℤ,
      tile_x col iw mw = mw + col * iw ∧ tile_y row ih mh = mh + row * ih) ∧
    (∀ (i : ℕ) (lpr : ℤ), 0 < lpr →
      (i : ℤ) = tile_row i lpr * lpr + tile_col i lpr ∧
      0 ≤ tile_col i lpr ∧ tile_col i lpr < lpr) ∧
    (∀ tw mw iw col : ℤ, 0 < iw → 0 ≤ col → col < l_per_row tw mw iw →
      tile_x col iw mw + iw ≤ tw - mw) ∧
    (∀ th mh ih row : ℤ, 0 < ih → 0 ≤ row → row < l_per_col th mh ih →
      tile_y row ih mh + ih ≤ th - mh) := by
  have key : ∀ tw mw iw col : ℤ, 0 < iw → 0 ≤ col → col < (tw - 2 * mw).fdiv iw →
      col * iw + mw + iw ≤ tw - mw := by
    intro tw mw iw col hiw hc hcol
    rw [Int.fdiv_eq_ediv _ hiw.le] at hcol
    have h1 : (col + 1) * iw ≤ (tw - 2 * mw) / iw * iw :=
      mul_le_mul_of_nonneg_right (by omega) hiw.le
    have h2 : (tw - 2 * mw) / iw * iw ≤ tw - 2 * mw := Int.ediv_mul_le _ hiw.ne'
    rw [add_mul, one_mul] at h1
    linarith
  refine ⟨fun col row iw ih mw mh => ⟨by unfold tile_x; ring, by unfold tile_y; ring⟩,
    ?_, key, key⟩
  intro i lpr hl
  unfold tile_row tile_col
  rw [Int.fdiv_eq_ediv _ hl.le, Int.fmod_eq_emod _ hl.le]
  have h := Int.ediv_add_emod (i : ℤ) lpr
  rw [mul_comm] at h
  exact ⟨by linarith, Int.emod_nonneg _ hl.ne', Int.emod_lt_of_pos _ hl⟩

/-- Witness for C5: index 17 on the Scenario B grid of 10 columns; the cell
at column 9, row 10 still fits inside the canvas minus the opposite margin. -/
theorem tile_position_bounds_witness :
    (tile_x 9 236 56 = 56 + 9 * 236 ∧ tile_y 10 285 56 = 56 + 10 * 285) ∧
    ((17 : ℤ) = tile_row 17 10 * 10 + tile_col 17 10 ∧
      0 ≤ tile_col 17 10 ∧ tile_col 17 10 < 10) ∧
    tile_x 9 236 56 + 236 ≤ 2550 - 56 ∧
    tile_y 10 285 56 + 285 ≤ 3300 - 56 :=
  ⟨tile_position_bounds.1 9 10 236 285 56 56,
    tile_position_bounds.2.1 17 10 (by decide),
    tile_position_bounds.2.2.1 2550 56 236 9 (by decide) (by decide) (by decide),
    tile_position_bounds.2.2.2 3300 56 285 10 (by decide) (by decide) (by decide)⟩

/-- Claim C9: with margins and cell fixed, growing the canvas never shrinks
the per-row or per-column count; with canvas and margins fixed, growing the
cell never grows them — for the plain grid formula and for the template
variant that adds a per-cell margin. The cell-growing direction needs a
non-degenerate usable area (non-negative numerator), since Python floor
division of a negative numerator moves toward zero as the divisor grows. -/
theorem grid_capacity_monotone :
    ∀ tw tw2 mw iw iw2 cmx : ℤ,
      (0 < iw → tw ≤ tw2 → l_per_row tw mw iw ≤ l_per_row tw2 mw iw) ∧
      (0 < iw → iw ≤ iw2 → 0 ≤ tw - 2 * mw → l_per_row tw mw iw2 ≤ l_per_row tw mw iw) ∧
      (0 < iw → tw ≤ tw2 → l_per_col tw mw iw ≤ l_per_col tw2 mw iw) ∧
      (0 < iw → iw ≤ iw2 → 0 ≤ tw - 2 * mw → l_per_col tw mw iw2 ≤ l_per_col tw mw iw) ∧
      (0 < cmx + iw → tw ≤ tw2 → cell_per_row tw cmx mw iw ≤ cell_per_row tw2 cmx mw iw) ∧
      (0 < cmx + iw → iw ≤ iw2 → 0 ≤ tw + cmx - 2 * mw →
        cell_per_row tw cmx mw iw2 ≤ cell_per_row tw cmx mw iw) ∧
      (0 < cmx + iw → tw ≤ tw2 → cell_per_col tw cmx mw iw ≤ cell_per_col tw2 cmx mw iw) ∧
      (0 < cmx + iw → iw ≤ iw2 → 0 ≤ tw + cmx - 2 * mw →
        cell_per_col tw cmx mw iw2 ≤ cell_per_col tw cmx mw iw) := by
  intro tw tw2 mw iw iw2 cmx
  have plain_num : ∀ a b c : ℤ, 0 < c → a ≤ b → a.fdiv c ≤ b.fdiv c :=
    fun a b c hc h => fdiv_le_fdiv_num hc h
  refine ⟨fun hiw h => plain_num _ _ _ hiw (by omega),
    fun hiw h hnum => fdiv_anti_den hnum hiw h,
    fun hiw h => plain_num _ _ _ hiw (by omega),
    fun hiw h hnum => fdiv_anti_den hnum hiw h,
    fun hiw h => plain_num _ _ _ (by omega) (by omega),
    fun hiw h hnum => fdiv_anti_den hnum (by omega) (by omega),
    fun hiw h => plain_num _ _ _ (by omega) (by omega),
    fun hiw h hnum => fdiv_anti_den hnum (by omega) (by omega)⟩

/-- Witness for C9 at concrete sizes around Scenario B. -/
theorem grid_capacity_monotone_witness :
    l_per_row 2550 56 236 ≤ l_per_row 2600 56 236 ∧
    l_per_row 2550 56 240 ≤ l_per_row 2550 56 236 ∧
    cell_per_row 2550 112 168 2362 ≤ cell_per_row 2700 112 168 2362 ∧
    cell_per_row 2550 112 168 2400 ≤ cell_per_row 2550 112 168 2362 :=
  ⟨(grid_capacity_monotone 2550 2600 56 236 240 112).1 (by decide) (by decide),
    (grid_capacity_monotone 2550 2600 56 236 240 112).2.1 (by decide) (by decide) (by decide),
    (grid_capacity_monotone 2550 2700 168 2362 2400 112).2.2.2.2.1 (by decide) (by decide),
    (grid_capacity_monotone 2550 2700 168 2362 2400 112).2.2.2.2.2.1 (by decide) (by decide)
      (by decide)⟩

/-- The page loop of `tile`, label.py lines 347-372 (label-customsize.py lines
308-329 is the same computation): first `n_pages = math.ceil(len(ims) /
(l_per_row * l_per_col))` — which raises `ZeroDivisionError` when the grid
capacity is zero, and raises it already at line 348/349 when an image
dimension is zero — then `chunks(ims, int(l_per_col * l_per_row))` drives one
page per chunk, each label placed at the row-major cell position. -/
def tileE {α : Type} (ims : List α) (tw th mw mh iw ih : ℤ) :
    Except PyError (List (ℕ × List (α × ℤ × ℤ))) :=
  if iw = 0 ∨ ih = 0 then .error .zeroDivisionError
  else if l_per_row tw mw iw * l_per_col th mh ih = 0 then .error .zeroDivisionError
  else
    (chunksZE ims (l_per_col th mh ih * l_per_row tw mw iw)).map
      (fun pages => pages.map (fun page =>
        (page.1, page.2.enum.map (fun q =>
          (q.2, tile_x (tile_col q.1 (l_per_row tw mw iw)) iw mw,
            tile_y (tile_row q.1 (l_per_row tw mw iw)) ih mh)))))

/-- Claim C6: when the computed grid capacity `cols * rows` is zero, or the
paginator is invoked with page capacity zero, the operation fails with a
fatal error value that propagates to the caller (in the source this is the
uncaught `ZeroDivisionError` from the `n_pages` division, and the uncaught
`ValueError` from `range(0, len, 0)`; there is no page output). -/
theorem tile_zero_capacity_fails {α : Type} :
    (∀ (ims : List α) (tw th mw mh iw ih : ℤ),
      l_per_row tw mw iw * l_per_col th mh ih = 0 →
      (tileE ims tw th mw mh iw ih).isOk = false) ∧
    (∀ lst : List α, (chunksZE lst 0).isOk = false) := by
  constructor
  · intro ims tw th mw mh iw ih hcap
    unfold tileE
    by_cases hz : iw = 0 ∨ ih = 0
    · rw [if_pos hz]; rfl
    · rw [if_neg hz, if_pos hcap]; rfl
  · intro lst
    rfl

/-- Witness for C6: a 100 by 100 canvas whose 200-wide label does not fit,
so `cols = 0`; and the paginator at capacity zero. -/
theorem tile_zero_capacity_fails_witness :
    l_per_row 100 0 200 * l_per_col 100 0 50 = 0 ∧
    (tileE [0] 100 100 0 0 200 50).isOk = false ∧
    (chunksZE [0] 0).isOk = false :=
  ⟨by decide,
    (tile_zero_capacity_fails (α := ℕ)).1 [0] 100 100 0 0 200 50 (by decide),
    (tile_zero_capacity_fails (α := ℕ)).2 [0]⟩

/-- label.py line 331: `im_x_center = (imsize[0] / 2) + (imno) *
((cell_size[0] - imsize[0]) / (ims_per_cell - 1))`, exact float arithmetic
carried in `Rat`; `K` is `ims_per_cell` and `imno` the 0-based position of
the sub-image inside its group. -/
def im_x_center (imw cellw : ℚ) (K imno : ℕ) : ℚ :=
  imw / 2 + (imno : ℚ) * ((cellw - imw) / ((K : ℚ) - 1))

/-- label.py line 331 with its failure mode: the divisor `ims_per_cell - 1`
is zero exactly when `K = 1`, and Python then raises `ZeroDivisionError`
before any multiplication by `imno` can mask it. -/
def im_x_centerE (imw cellw : ℚ) (K imno : ℕ) : Except PyError ℚ :=
  if K = 1 then .error .zeroDivisionError
  else .ok (im_x_center imw cellw K imno)

/-- label.py line 332: `im_x = int(im_x_center - .5 * imsize[0])`. -/
def im_x (imw cellw : ℚ) (K imno : ℕ) : ℤ :=
  pytrunc (im_x_center imw cellw K imno - 1 / 2 * imw)

/-- Claim C2 is violated by the code (code bug): there is no single-image
centering branch. With a 150-wide cell and a 100-wide unit, `ims_per_cell =
1` and the one-image group hits a division by zero instead of being centered
at `x = 25`; with a 300-wide cell (`ims_per_cell = 3`) a trailing one-image
group is placed at `x = 0`, not at the centered `x = 100`. -/
theorem cell_single_image_not_centered :
    ims_per_cell 150 100 = 1 ∧
    (im_x_centerE 100 150 1 0).isOk = false ∧
    ims_per_cell 300 100 = 3 ∧
    im_x 100 300 3 0 = 0 ∧
    pytrunc (((300 : ℚ) - 100) / 2) = 100 := by
  refine ⟨by decide, rfl, by decide, ?_, ?_⟩
  · have h : im_x_center 100 300 3 0 - 1 / 2 * 100 = 0 := by
      norm_num [im_x_center]
    unfold im_x
    rw [h]
    norm_num [pytrunc]
  · have h : ((300 : ℚ) - 100) / 2 = 100 := by norm_num
    rw [h]
    norm_num [pytrunc]

/-- Counterexample to claim C3 as stated: in a cell of width 300 with
`ims_per_cell = 3`, a final group of `n = 2` sub-images of width 100 has its
second computed center at 150 (the code divides by `ims_per_cell - 1`, not
by `n - 1`), not at the claimed 250, and the two centers sum to 200, not to
the cell width 300. -/
theorem cell_center_shorter_group_cex :
    ims_per_cell 300 100 = 3 ∧
    ¬ (im_x_center 100 300 3 1 = 100 / 2 + (1 : ℚ) * ((300 - 100) / ((2 : ℚ) - 1)) ∧
       im_x_center 100 300 3 0 + im_x_center 100 300 3 1 = 300) := by
  refine ⟨by decide, ?_⟩
  rintro ⟨h1, -⟩
  norm_num [im_x_center] at h1

/-- Claim C3 amended: the computed i-th center always uses the full-cell
capacity in the divisor, `center_i = unit.w / 2 + i * (W - unit.w) /
(ims_per_cell - 1)`; for a full group (`n = ims_per_cell = K ≥ 2`) this is
the claimed formula and the centers are symmetric about `W / 2`
(`center_i + center_(K-1-i) = W`), but the symmetry can fail for a shorter
final group. -/
theorem cell_centers_full_group (imw cellw : ℚ) (K i : ℕ) (hK : 2 ≤ K) (hi : i < K) :
    im_x_center imw cellw K i =
      imw / 2 + (i : ℚ) * ((cellw - imw) / ((K : ℚ) - 1)) ∧
    im_x_center imw cellw K i + im_x_center imw cellw K (K - 1 - i) = cellw := by
  refine ⟨rfl, ?_⟩
  have h1 : (1 : ℚ) < (K : ℚ) := by exact_mod_cast (by omega : 1 < K)
  have hc : ((K : ℚ) - 1) ≠ 0 := sub_ne_zero.mpr (ne_of_gt h1)
  have hcast : ((K - 1 - i : ℕ) : ℚ) = (K : ℚ) - 1 - (i : ℚ) := by
    push_cast [Nat.cast_sub (by omega : i ≤ K - 1), Nat.cast_sub (by omega : 1 ≤ K)]
    ring
  unfold im_x_center
  rw [hcast]
  field_simp
  ring

/-- Witness for amended C3: Scenario C, a full group of three 100-wide units
in a 300-wide cell; the first and last centers sum to the cell width. -/
theorem cell_centers_full_group_witness :
    2 ≤ 3 ∧ 0 < 3 ∧
    (im_x_center 100 300 3 0 =
      100 / 2 + ((0 : ℕ) : ℚ) * ((300 - 100) / (((3 : ℕ) : ℚ) - 1)) ∧
    im_x_center 100 300 3 0 + im_x_center 100 300 3 (3 - 1 - 0) = 300) :=
  ⟨by decide, by decide, cell_centers_full_group 100 300 3 0 (by decide) (by decide)⟩

/-- `cellno += skip_cells`, label.py line 328: applied to every chunk index
of the (single) template page. -/
def template_eff (cellno skip : ℕ) : ℕ := cellno + skip

/-- `col = cellno % cell_per_row`, label.py line 334. -/
def template_col (e cpr : ℤ) : ℤ := e.fmod cpr

/-- `row = math.floor(cellno / cell_per_row)`, label.py line 335. -/
def template_row (e cpr : ℤ) : ℤ := e.fdiv cpr

/-- `cellx = MARGIN[0] + (cell_size[0] + cell_margin[0]) * col`, label.py
line 336. -/
def template_cellx (mw cellw cmx col : ℤ) : ℤ := mw + (cellw + cmx) * col

/-- `celly = MARGIN[1] + (cell_size[1] + cell_margin[1]) * row`, label.py
line 337. -/
def template_celly (mh cellh cmy row : ℤ) : ℤ := mh + (cellh + cmy) * row

/-- Pixel position of the template cell with effective index `e`. -/
def template_cell_pos (e : ℕ) (cpr cellw cellh cmx cmy mw mh : ℤ) : ℤ × ℤ :=
  (template_cellx mw cellw cmx (template_col (e : ℤ) cpr),
    template_celly mh cellh cmy (template_row (e : ℤ) cpr))

/-- `template_tile`, label.py lines 309-342, at the level of page structure
and cell positions. `K` stands for the computed `ims_per_cell` and `cpr` for
the computed `cell_per_row`. The function builds exactly one `paper` canvas;
the error branches are the uncaught exceptions the loop can raise: `ims[0]`
on an empty list (IndexError), `range(0, len, 0)` when `K = 0` (ValueError),
the division by `ims_per_cell - 1` when `K = 1`, and `cellno % cell_per_row`
when `cpr = 0` (both ZeroDivisionError). There is no pagination and no bound
check against `cell_per_col`: every chunk is pasted onto the same canvas. -/
def template_tile_model (nIms K skip : ℕ) (cpr cellw cellh cmx cmy mw mh : ℤ) :
    Except PyError (List (List (ℤ × ℤ))) :=
  if nIms = 0 then .error .indexError
  else if K = 0 then .error .valueError
  else if K = 1 then .error .zeroDivisionError
  else if cpr = 0 then .error .zeroDivisionError
  else .ok [(List.range ((nIms + K - 1) / K)).map
    (fun j => template_cell_pos (template_eff j skip) cpr cellw cellh cmx cmy mw mh)]

/-- Claim C8: with `skip_cells = k`, the first chunk of a non-empty batch has
cell index 0, so the first rendered unit lands at grid position
`(k mod cell_per_row, floor (k / cell_per_row))`; with `k = 5` on a grid of
10 cells per row that is `(col 5, row 0)`; and every cell of the page is
shifted by the same offset `k` (cell `j` with skip `k` sits exactly where
cell `j + k` would sit without skip). -/
theorem template_skip_cells (α : Type) :
    (∀ (lst : List α) (K : ℕ), lst ≠ [] → 1 ≤ K →
      (chunks lst K).head? = some (0, lst.take K)) ∧
    (∀ (k : ℕ) (cpr : ℤ), 0 < cpr →
      template_col ((template_eff 0 k : ℕ) : ℤ) cpr = (k : ℤ) % cpr ∧
      template_row ((template_eff 0 k : ℕ) : ℤ) cpr = (k : ℤ) / cpr) ∧
    (template_col ((template_eff 0 5 : ℕ) : ℤ) 10 = 5 ∧
      template_row ((template_eff 0 5 : ℕ) : ℤ) 10 = 0) ∧
    (∀ (j k : ℕ) (cpr cellw cellh cmx cmy mw mh : ℤ),
      template_cell_pos (template_eff j k) cpr cellw cellh cmx cmy mw mh =
        template_cell_pos (template_eff (j + k) 0) cpr cellw cellh cmx cmy mw mh) := by
  refine ⟨?_, ?_, by decide, ?_⟩
  · intro lst K hne hK
    have hL : 1 ≤ lst.length := List.length_pos.mpr hne
    have hm : 1 ≤ (lst.length + K - 1) / K := by
      rw [Nat.le_div_iff_mul_le (by omega)]
      omega
    obtain ⟨m, hmEq⟩ : ∃ m, (lst.length + K - 1) / K = m + 1 :=
      ⟨(lst.length + K - 1) / K - 1, by omega⟩
    rw [chunks_eq lst hK, hmEq, List.range_succ_eq_map]
    simp
  · intro k cpr hcpr
    unfold template_eff template_col template_row
    rw [Nat.zero_add]
    exact ⟨Int.fmod_eq_emod _ hcpr.le, Int.fdiv_eq_ediv _ hcpr.le⟩
  · intro j k cpr cellw cellh cmx cmy mw mh
    simp [template_eff]

/-- Witness for C8: Scenario E, skip 5 on a 10-per-row grid. -/
theorem template_skip_cells_witness :
    ([10] ≠ ([] : List ℕ)) ∧ 1 ≤ 2 ∧ (0 : ℤ) < 10 ∧
    (chunks [10] 2).head? = some (0, [10].take 2) ∧
    (template_col ((template_eff 0 5 : ℕ) : ℤ) 10 = (5 : ℤ) % 10 ∧
      template_row ((template_eff 0 5 : ℕ) : ℤ) 10 = (5 : ℤ) / 10) ∧
    (template_col ((template_eff 0 5 : ℕ) : ℤ) 10 = 5 ∧
      template_row ((template_eff 0 5 : ℕ) : ℤ) 10 = 0) :=
  ⟨by decide, by decide, by decide,
    (template_skip_cells ℕ).1 [10] 2 (by decide) (by decide),
    (template_skip_cells ℕ).2.1 5 10 (by decide),
    (template_skip_cells ℕ).2.2.1⟩

/-- Claim C10: template-mode tiling returns exactly one page canvas no
matter how many images are supplied (under a configuration that does not
raise: at least one image, `ims_per_cell ≥ 2`, `cell_per_row ≥ 1`): all
`ceil (nIms / K)` cells are placed on that single page, and any cell whose
effective index reaches `cell_per_row * cell_per_col` is still placed, at a
row index at least `cell_per_col`, hence at a y coordinate strictly below
the last grid row — silently clipped rather than raising or paginating. -/
theorem template_tile_single_page (nIms K skip : ℕ)
    (tw th cellw cellh cmx cmy mw mh : ℤ)
    (h1 : 1 ≤ nIms) (h2 : 2 ≤ K)
    (hcpr : 0 < cell_per_row tw cmx mw cellw)
    (hrow : 0 < cellh + cmy) :
    template_tile_model nIms K skip (cell_per_row tw cmx mw cellw)
        cellw cellh cmx cmy mw mh =
      .ok [(List.range ((nIms + K - 1) / K)).map
        (fun j => template_cell_pos (template_eff j skip)
          (cell_per_row tw cmx mw cellw) cellw cellh cmx cmy mw mh)] ∧
    ((List.range ((nIms + K - 1) / K)).map
        (fun j => template_cell_pos (template_eff j skip)
          (cell_per_row tw cmx mw cellw) cellw cellh cmx cmy mw mh)).length =
      (nIms + K - 1) / K ∧
    ∀ j : ℕ,
      cell_per_row tw cmx mw cellw * cell_per_col th cmy mh cellh ≤
          ((template_eff j skip : ℕ) : ℤ) →
      cell_per_col th cmy mh cellh ≤
          template_row ((template_eff j skip : ℕ) : ℤ) (cell_per_row tw cmx mw cellw) ∧
      template_celly mh cellh cmy (cell_per_col th cmy mh cellh - 1) <
        (template_cell_pos (template_eff j skip) (cell_per_row tw cmx mw cellw)
          cellw cellh cmx cmy mw mh).2 := by
  refine ⟨?_, by rw [List.length_map, List.length_range], ?_⟩
  · unfold template_tile_model
    rw [if_neg (by omega), if_neg (by omega), if_neg (by omega), if_neg hcpr.ne']
  · intro j hj
    have hr : cell_per_col th cmy mh cellh ≤
        template_row ((template_eff j skip : ℕ) : ℤ) (cell_per_row tw cmx mw cellw) := by
      unfold template_row
      rw [Int.fdiv_eq_ediv _ hcpr.le, Int.le_ediv_iff_mul_le hcpr]
      rw [mul_comm] at hj
      exact hj
    refine ⟨hr, ?_⟩
    unfold template_cell_pos template_celly
    have hlt : cell_per_col th cmy mh cellh - 1 <
        template_row ((template_eff j skip : ℕ) : ℤ) (cell_per_row tw cmx mw cellw) := by
      omega
    have := mul_lt_mul_of_pos_left hlt hrow
    dsimp only
    linarith

/-- Witness for C10: nine images, two per cell, on a 2 by 2 template grid —
five cells, the fifth strictly below the last grid row, all on one page. -/
theorem template_tile_single_page_witness :
    1 ≤ 9 ∧ 2 ≤ 2 ∧ 0 < cell_per_row 200 0 0 100 ∧ (0 : ℤ) < 50 + 0 ∧
    (template_tile_model 9 2 0 (cell_per_row 200 0 0 100) 100 50 0 0 0 0 =
      .ok [(List.range ((9 + 2 - 1) / 2)).map
        (fun j => template_cell_pos (template_eff j 0)
          (cell_per_row 200 0 0 100) 100 50 0 0 0 0)] ∧
    ((List.range ((9 + 2 - 1) / 2)).map
        (fun j => template_cell_pos (template_eff j 0)
          (cell_per_row 200 0 0 100) 100 50 0 0 0 0)).length = (9 + 2 - 1) / 2 ∧
    ∀ j : ℕ,
      cell_per_row 200 0 0 100 * cell_per_col 100 0 0 50 ≤
          ((template_eff j 0 : ℕ) : ℤ) →
      cell_per_col 100 0 0 50 ≤
          template_row ((template_eff j 0 : ℕ) : ℤ) (cell_per_row 200 0 0 100) ∧
      template_celly 0 50 0 (cell_per_col 100 0 0 50 - 1) <
        (template_cell_pos (template_eff j 0) (cell_per_row 200 0 0 100)
          100 50 0 0 0 0).2) :=
  ⟨by decide, by decide, by decide, by decide,
    template_tile_single_page 9 2 0 200 100 100 50 0 0 0 0
      (by decide) (by decide) (by decide) (by decide)⟩

/-- One RGBA pixel, channels 0..255. -/
structure Pixel where
  r : ℕ
  g : ℕ
  b : ℕ
  a : ℕ
deriving DecidableEq, Repr

/-- A PIL image: a size and a pixel map (only in-bounds pixels matter). -/
structure Img where
  width : ℤ
  height : ℤ
  px : ℤ → ℤ → Pixel

/-- Per-channel composition of `Image.paste` under an RGBA mask with alpha
`a`: the destination channel is kept exactly where `a = 0`. -/
def blendC (s d a : ℕ) : ℕ := (s * a + d * (255 - a)) / 255

def blendPx (s d : Pixel) (a : ℕ) : Pixel :=
  ⟨blendC s.r d.r a, blendC s.g d.g a, blendC s.b d.b a, blendC s.a d.a a⟩

/-- `dst.paste(src, (x0, y0), mask)`: inside the pasted box (clipped to the
destination) the pixel is blended under the mask alpha, or overwritten
outright when no mask is given; every other pixel is untouched. -/
def paste (dst src : Img) (x0 y0 : ℤ) (mask : Option Img) : Img :=
  { width := dst.width, height := dst.height,
    px := fun x y =>
      if 0 ≤ x ∧ x < dst.width ∧ 0 ≤ y ∧ y < dst.height ∧
          x0 ≤ x ∧ x < x0 + src.width ∧ y0 ≤ y ∧ y < y0 + src.height then
        match mask with
        | none => src.px (x - x0) (y - y0)
        | some m =>
            blendPx (src.px (x - x0) (y - y0)) (dst.px x y) ((m.px (x - x0) (y - y0)).a)
      else dst.px x y }

/-- `paper.paste(label_copy, (x, y), label_copy)`, label.py line 371. -/
def tile_paste (paper label : Img) (x y : ℤ) : Img := paste paper label x y (some label)

/-- `paper.paste(cell_im, (cellx, celly), cell_im)`, label.py line 341. -/
def template_tile_paste (paper cell : Img) (x y : ℤ) : Img :=
  paste paper cell x y (some cell)

/-- `paper.paste(label_copy, (x, y))`, label-customsize.py line 328: no mask. -/
def customsize_tile_paste (paper label : Img) (x y : ℤ) : Img :=
  paste paper label x y none

lemma paste_masked_px (dst src : Img) (x0 y0 x y : ℤ) :
    (paste dst src x0 y0 (some src)).px x y =
      if 0 ≤ x ∧ x < dst.width ∧ 0 ≤ y ∧ y < dst.height ∧
          x0 ≤ x ∧ x < x0 + src.width ∧ y0 ≤ y ∧ y < y0 + src.height then
        blendPx (src.px (x - x0) (y - y0)) (dst.px x y) ((src.px (x - x0) (y - y0)).a)
      else dst.px x y := rfl

lemma paste_nomask_px (dst src : Img) (x0 y0 x y : ℤ) :
    (paste dst src x0 y0 none).px x y =
      if 0 ≤ x ∧ x < dst.width ∧ 0 ≤ y ∧ y < dst.height ∧
          x0 ≤ x ∧ x < x0 + src.width ∧ y0 ≤ y ∧ y < y0 + src.height then
        src.px (x - x0) (y - y0)
      else dst.px x y := rfl

lemma blendPx_zero (s d : Pixel) : blendPx s d 0 = d := by
  have hmd : ∀ m : ℕ, m * 255 / 255 = m := fun m => Nat.mul_div_cancel m (by norm_num)
  cases d
  simp [blendPx, blendC, hmd]

/-- Claim C7 amended: in label.py both page pastes use the pasted unit
itself as the mask, so a fully transparent source pixel leaves the page
pixel unchanged; in label-customsize.py the page paste carries no mask, so
inside the pasted box the page pixel is overwritten by the source pixel
regardless of its alpha. -/
theorem paste_mask_preserves_transparent (paper label : Img) (x0 y0 x y : ℤ)
    (halpha : (label.px (x - x0) (y - y0)).a = 0) :
    (tile_paste paper label x0 y0).px x y = paper.px x y ∧
    (template_tile_paste paper label x0 y0).px x y = paper.px x y ∧
    (0 ≤ x → x < paper.width → 0 ≤ y → y < paper.height →
      x0 ≤ x → x < x0 + label.width → y0 ≤ y → y < y0 + label.height →
      (customsize_tile_paste paper label x0 y0).px x y = label.px (x - x0) (y - y0)) := by
  refine ⟨?_, ?_, ?_⟩
  · unfold tile_paste
    rw [paste_masked_px]
    split
    · rw [halpha, blendPx_zero]
    · rfl
  · unfold template_tile_paste
    rw [paste_masked_px]
    split
    · rw [halpha, blendPx_zero]
    · rfl
  · intro hx0 hx1 hy0 hy1 ha0 ha1 hb0 hb1
    unfold customsize_tile_paste
    rw [paste_nomask_px, if_pos ⟨hx0, hx1, hy0, hy1, ha0, ha1, hb0, hb1⟩]

/-- A 1 by 1 opaque white page and a 1 by 1 fully transparent label. -/
def whitePage : Img := ⟨1, 1, fun _ _ => ⟨255, 255, 255, 255⟩⟩

def clearLabel : Img := ⟨1, 1, fun _ _ => ⟨9, 9, 9, 0⟩⟩

/-- Counterexample to claim C7 as stated: the label-customsize.py tiling
path pastes without a mask, so a fully transparent label pixel does
overwrite the white background underneath it. -/
theorem customsize_paste_overwrites_cex :
    (clearLabel.px 0 0).a = 0 ∧
    (customsize_tile_paste whitePage clearLabel 0 0).px 0 0 ≠ whitePage.px 0 0 := by
  constructor
  · rfl
  · decide

/-- Witness for amended C7 at the concrete 1 by 1 images. -/
theorem paste_mask_preserves_transparent_witness :
    (clearLabel.px (0 - 0) (0 - 0)).a = 0 ∧
    ((tile_paste whitePage clearLabel 0 0).px 0 0 = whitePage.px 0 0 ∧
    (template_tile_paste whitePage clearLabel 0 0).px 0 0 = whitePage.px 0 0 ∧
    ((0 : ℤ) ≤ 0 → (0 : ℤ) < whitePage.width → (0 : ℤ) ≤ 0 → (0 : ℤ) < whitePage.height →
      (0 : ℤ) ≤ 0 → (0 : ℤ) < 0 + clearLabel.width → (0 : ℤ) ≤ 0 →
      (0 : ℤ) < 0 + clearLabel.height →
      (customsize_tile_paste whitePage clearLabel 0 0).px 0 0 =
        clearLabel.px (0 - 0) (0 - 0))) :=
  ⟨by decide, paste_mask_preserves_transparent whitePage clearLabel 0 0 0 0 (by decide)⟩
